import Mathlib

/-!
Verification of the tabular averaging aggregator of `app.py`
(`clean_average_data`) and of the derived columns computed from its
output (yield normalisation and the yield-per-pesticide /
yield-per-rainfall ratios).

The pandas `DataFrame` is embedded as a `List` of records.  Numeric
cells of the raw table come from the CSV and are modelled as exact
rationals; cells produced by the pipeline (column means, sums,
ratios) live in `PFloat`, a model of the IEEE-754 doubles pandas
uses: a finite value (kept exact as a rational), the two infinities,
or NaN.  Rounding is not modelled; the claims under study are about
selection, emptiness, ordering and the exact arithmetic shape of the
formulas, not about rounding error.
-/

set_option allowUnsafeReducibility true
attribute [semireducible] Rat.add Rat.sub Rat.mul Rat.inv

namespace AgriYield

/-- A pandas floating-point cell: a finite value (exact), `inf`, `-inf`
or NaN.  Signed zero is not distinguished. -/
inductive PFloat where
  | val (q : ℚ)
  | inf
  | ninf
  | nan
deriving DecidableEq

namespace PFloat

/-- `notna` test: everything except NaN is "not NaN" (so infinities pass
a `notna` filter). -/
def isNan : PFloat → Bool
  | .nan => true
  | _ => false

/-- A finite double (neither NaN nor an infinity). -/
def isFinite : PFloat → Bool
  | .val _ => true
  | _ => false

/-- The rational carried by a finite value (junk `0` on non-finite
values; only ever used on cells proved finite). -/
def toRat : PFloat → ℚ
  | .val q => q
  | _ => 0

/-- IEEE addition on the modelled values: NaN propagates, opposite
infinities give NaN. -/
def add : PFloat → PFloat → PFloat
  | .nan, _ => .nan
  | _, .nan => .nan
  | .val a, .val b => .val (a + b)
  | .inf, .ninf => .nan
  | .ninf, .inf => .nan
  | .inf, _ => .inf
  | _, .inf => .inf
  | .ninf, _ => .ninf
  | _, .ninf => .ninf

/-- Multiplication by a finite scalar (the `100 *` broadcast on
line 183 of `app.py`). -/
def scale (c : ℚ) : PFloat → PFloat
  | .val a => .val (c * a)
  | .nan => .nan
  | .inf => if 0 < c then .inf else if c < 0 then .ninf else .nan
  | .ninf => if 0 < c then .ninf else if c < 0 then .inf else .nan

/-- IEEE division on the modelled values.  Division of a nonzero finite
value by zero gives a signed infinity, `0/0` gives NaN; no exception is
raised anywhere (numpy element-wise division does not raise). -/
def div : PFloat → PFloat → PFloat
  | .nan, _ => .nan
  | _, .nan => .nan
  | .val a, .val b =>
      if b = 0 then (if 0 < a then .inf else if a < 0 then .ninf else .nan)
      else .val (a / b)
  | .val _, .inf => .val 0
  | .val _, .ninf => .val 0
  | .inf, .val b => if 0 ≤ b then .inf else .ninf
  | .ninf, .val b => if 0 ≤ b then .ninf else .inf
  | .inf, .inf => .nan
  | .inf, .ninf => .nan
  | .ninf, .inf => .nan
  | .ninf, .ninf => .nan

end PFloat

/-- Python's builtin `sum` over a float column: left fold of `+`
starting from `0` (used by `.transform(sum)` on line 183). -/
def pfSum (l : List PFloat) : PFloat := l.foldl PFloat.add (PFloat.val 0)

/-- One row of the raw table after `load_data`'s column rename:
`Area`, `Item`, `Year`, `Yield (Tonnes)`, `Average Rainfall (mm)`,
`Pesticides (Tonnes)`, `Average Temperature (C)`.  The pandas index
column `Unnamed: 0` is dropped by `clean_average_data` before any use
and is not modelled.  Values loaded from the CSV are finite. -/
structure RawRecord where
  area : String
  item : String
  year : Int
  yieldT : ℚ
  rainfall : ℚ
  pesticides : ℚ
  temp : ℚ
deriving DecidableEq

/-- One row of the averaged table `ave_df`: same columns, but the four
numeric cells are produced by `DataFrame.mean` and may be NaN. -/
structure AggRecord where
  area : String
  item : String
  year : Int
  yieldT : PFloat
  rainfall : PFloat
  pesticides : PFloat
  temp : PFloat
deriving DecidableEq

/-- Strict lexicographic comparison of character lists by code point:
how Python compares the strings that pandas sorts on. -/
def charListLt : List Char → List Char → Bool
  | _, [] => false
  | [], _ :: _ => true
  | a :: as, b :: bs =>
    if a < b then true else if b < a then false else charListLt as bs

/-- Strict string comparison by code point (Python's `<` on `str`). -/
def strLt (a b : String) : Bool := charListLt a.data b.data

lemma charListLt_trans {l₁ l₂ l₃ : List Char} (h₁ : charListLt l₁ l₂ = true)
    (h₂ : charListLt l₂ l₃ = true) : charListLt l₁ l₃ = true := by
  induction l₁ generalizing l₂ l₃ with
  | nil =>
    cases l₃ with
    | nil =>
      cases l₂ with
      | nil => simp [charListLt] at h₁
      | cons b bs => simp [charListLt] at h₂
    | cons c cs => rfl
  | cons a as ih =>
    cases l₂ with
    | nil => simp [charListLt] at h₁
    | cons b bs =>
      cases l₃ with
      | nil => simp [charListLt] at h₂
      | cons c cs =>
        by_cases hab : a < b
        · by_cases hbc : b < c
          · simp [charListLt, lt_trans hab hbc]
          · by_cases hcb : c < b
            · simp [charListLt, hbc, hcb] at h₂
            · have hb : b = c := le_antisymm (le_of_not_lt hcb) (le_of_not_lt hbc)
              subst hb
              simp [charListLt, hab]
        · by_cases hba : b < a
          · simp [charListLt, hab, hba] at h₁
          · have ha : a = b := le_antisymm (le_of_not_lt hba) (le_of_not_lt hab)
            subst ha
            simp only [charListLt, if_neg (lt_irrefl a)] at h₁
            by_cases hac : a < c
            · simp [charListLt, hac]
            · by_cases hca : c < a
              · simp [charListLt, hac, hca] at h₂
              · have hc : a = c := le_antisymm (le_of_not_lt hca) (le_of_not_lt hac)
                subst hc
                simp only [charListLt, if_neg (lt_irrefl a)] at h₂ ⊢
                exact ih h₁ h₂

lemma charListLt_trichotomy (l₁ l₂ : List Char) :
    charListLt l₁ l₂ = true ∨ l₁ = l₂ ∨ charListLt l₂ l₁ = true := by
  induction l₁ generalizing l₂ with
  | nil =>
    cases l₂ with
    | nil => exact Or.inr (Or.inl rfl)
    | cons b bs => exact Or.inl rfl
  | cons a as ih =>
    cases l₂ with
    | nil => exact Or.inr (Or.inr rfl)
    | cons b bs =>
      rcases lt_trichotomy a b with h | h | h
      · exact Or.inl (by simp [charListLt, h])
      · subst h
        rcases ih bs with h' | h' | h'
        · exact Or.inl (by simp [charListLt, lt_irrefl, h'])
        · exact Or.inr (Or.inl (by rw [h']))
        · exact Or.inr (Or.inr (by simp [charListLt, lt_irrefl, h']))
      · exact Or.inr (Or.inr (by simp [charListLt, h]))

lemma strLt_trans {a b c : String} (h₁ : strLt a b = true) (h₂ : strLt b c = true) :
    strLt a c = true := charListLt_trans h₁ h₂

lemma strLt_trichotomy (a b : String) : strLt a b = true ∨ a = b ∨ strLt b a = true := by
  rcases charListLt_trichotomy a.data b.data with h | h | h
  · exact Or.inl h
  · refine Or.inr (Or.inl ?_)
    cases a
    cases b
    exact congrArg String.mk h
  · exact Or.inr (Or.inr h)

/-- The key of `sort_values(by=['Area', 'Year'], ascending=[True, True])`
on the raw table: lexicographic on (country, year). -/
def rawLE (a b : RawRecord) : Prop :=
  strLt a.area b.area = true ∨ (a.area = b.area ∧ a.year ≤ b.year)

/-- The same sort key on the averaged table (line 39 of `app.py`). -/
def aggLE (a b : AggRecord) : Prop :=
  strLt a.area b.area = true ∨ (a.area = b.area ∧ a.year ≤ b.year)

instance : DecidableRel rawLE := fun a b =>
  inferInstanceAs (Decidable (strLt a.area b.area = true ∨ (a.area = b.area ∧ a.year ≤ b.year)))

instance : DecidableRel aggLE := fun a b =>
  inferInstanceAs (Decidable (strLt a.area b.area = true ∨ (a.area = b.area ∧ a.year ≤ b.year)))

instance : IsTotal RawRecord rawLE :=
  ⟨fun a b => by
    unfold rawLE
    rcases strLt_trichotomy a.area b.area with h | h | h
    · exact Or.inl (Or.inl h)
    · rcases le_total a.year b.year with hy | hy
      · exact Or.inl (Or.inr ⟨h, hy⟩)
      · exact Or.inr (Or.inr ⟨h.symm, hy⟩)
    · exact Or.inr (Or.inl h)⟩

instance : IsTrans RawRecord rawLE :=
  ⟨fun a b c hab hbc => by
    unfold rawLE at *
    rcases hab with h1 | ⟨e1, y1⟩ <;> rcases hbc with h2 | ⟨e2, y2⟩
    · exact Or.inl (strLt_trans h1 h2)
    · exact Or.inl (e2 ▸ h1)
    · exact Or.inl (e1 ▸ h2)
    · exact Or.inr ⟨e1.trans e2, y1.trans y2⟩⟩

instance : IsTotal AggRecord aggLE :=
  ⟨fun a b => by
    unfold aggLE
    rcases strLt_trichotomy a.area b.area with h | h | h
    · exact Or.inl (Or.inl h)
    · rcases le_total a.year b.year with hy | hy
      · exact Or.inl (Or.inr ⟨h, hy⟩)
      · exact Or.inr (Or.inr ⟨h.symm, hy⟩)
    · exact Or.inr (Or.inl h)⟩

instance : IsTrans AggRecord aggLE :=
  ⟨fun a b c hab hbc => by
    unfold aggLE at *
    rcases hab with h1 | ⟨e1, y1⟩ <;> rcases hbc with h2 | ⟨e2, y2⟩
    · exact Or.inl (strLt_trans h1 h2)
    · exact Or.inl (e2 ▸ h1)
    · exact Or.inl (e1 ▸ h2)
    · exact Or.inr ⟨e1.trans e2, y1.trans y2⟩⟩

/-- Line 17 of `app.py`: `df[df['Area'].str.strip().astype(bool)]`.
`strip()` leaves the empty string exactly when every character is
whitespace, and the empty string is falsy, so a row survives iff its
country has some non-whitespace character. -/
def nonBlankArea (r : RawRecord) : Bool := !(r.area.data.all Char.isWhitespace)

/-- Exact match of a raw row against a (country, crop, year) triple:
string equality on country and crop, integer equality on year
(the three `==` filters of lines 25, 27 and 29). -/
def matchKey (c cr : String) (y : Int) (r : RawRecord) : Bool :=
  r.area == c && r.item == cr && r.year == y

/-- `Series.mean` over a column of finite floats (line 30): NaN when
the column has no entries, otherwise the sum divided by the count. -/
def pfMean (l : List ℚ) : PFloat :=
  if l.length = 0 then PFloat.nan else PFloat.val (l.sum / (l.length : ℚ))

/-- `clean_average_data` (lines 16–40 of `app.py`): drop blank-country
rows, sort the raw table by (Area, Year), then for every
country × crop × year of the candidate collections filter the matching
rows and take the column means; keep only result rows whose mean yield
is not NaN, and sort the result by (Area, Year) ascending.
`pandas.sort_values` uses an unstable quicksort; any sort by the same
key agrees up to the order of tied rows, which the spec leaves
unspecified — insertion sort is used here. -/
def clean_average_data (df : List RawRecord) (countries crops : List String)
    (years : List Int) : List AggRecord :=
  let main_df := df.filter nonBlankArea
  let main_df := List.insertionSort rawLE main_df
  let ave_df := countries.flatMap fun country =>
    let country_df := main_df.filter fun r => r.area == country
    crops.flatMap fun crop =>
      let country_crop_df := country_df.filter fun r => r.item == crop
      years.map fun year =>
        let country_crop_year_df := country_crop_df.filter fun r => r.year == year
        { area := country, item := crop, year := year,
          yieldT := pfMean (country_crop_year_df.map RawRecord.yieldT),
          rainfall := pfMean (country_crop_year_df.map RawRecord.rainfall),
          pesticides := pfMean (country_crop_year_df.map RawRecord.pesticides),
          temp := pfMean (country_crop_year_df.map RawRecord.temp) }
  let ave_df := ave_df.filter fun a => !a.yieldT.isNan
  List.insertionSort aggLE ave_df

/-- The records of `df` that survive the blank filter and match the
triple: this is exactly the subset each emitted row averages over. -/
def dfBucket (df : List RawRecord) (c cr : String) (y : Int) : List RawRecord :=
  (df.filter nonBlankArea).filter (matchKey c cr y)

/-- The averaged row built for one (country, crop, year) triple
(lines 30–36 of `app.py`), expressed over the unsorted bucket. -/
def row (df : List RawRecord) (c cr : String) (y : Int) : AggRecord :=
  { area := c, item := cr, year := y,
    yieldT := pfMean ((dfBucket df c cr y).map RawRecord.yieldT),
    rainfall := pfMean ((dfBucket df c cr y).map RawRecord.rainfall),
    pesticides := pfMean ((dfBucket df c cr y).map RawRecord.pesticides),
    temp := pfMean ((dfBucket df c cr y).map RawRecord.temp) }

/-- Exception-aware embedding of `clean_average_data`.  Python code can
raise; the embedding returns `Except`.  No step of this function's body
can raise on a well-typed record table — the only operations that could
(selecting a column, dropping `Unnamed: 0`) always succeed on the fixed
schema, and `mean` of an empty selection silently yields NaN rather
than raising — so the translation introduces no error case. -/
def clean_average_dataE (df : List RawRecord) (countries crops : List String)
    (years : List Int) : Except String (List AggRecord) := do
  let main_df := df.filter nonBlankArea
  let main_df := List.insertionSort rawLE main_df
  let ave_df := countries.flatMap fun country =>
    let country_df := main_df.filter fun r => r.area == country
    crops.flatMap fun crop =>
      let country_crop_df := country_df.filter fun r => r.item == crop
      years.map fun year =>
        let country_crop_year_df := country_crop_df.filter fun r => r.year == year
        { area := country, item := crop, year := year,
          yieldT := pfMean (country_crop_year_df.map RawRecord.yieldT),
          rainfall := pfMean (country_crop_year_df.map RawRecord.rainfall),
          pesticides := pfMean (country_crop_year_df.map RawRecord.pesticides),
          temp := pfMean (country_crop_year_df.map RawRecord.temp) }
  let ave_df := ave_df.filter fun a => !a.yieldT.isNan
  return List.insertionSort aggLE ave_df

/-- Modelled from the spec: the "grouped index (mapping
(country, crop, year) → list of records) built in one pass" — a single
right fold over the table that conses each record onto its key's
bucket. -/
def groupedIndex (main : List RawRecord) : String × String × Int → List RawRecord :=
  main.foldr
    (fun r m => fun k => if (r.area, r.item, r.year) = k then r :: m k else m k)
    (fun _ => [])

/-- Modelled from the spec: the grouped-index implementation — build the
index in one pass, then run the same cross-product emission averaging
each bucket, the same NaN filter and the same final sort.  This is the
optimisation the design explicitly permits; it is compared against
`clean_average_data`. -/
def grouped_average_data (df : List RawRecord) (countries crops : List String)
    (years : List Int) : List AggRecord :=
  let main_df := df.filter nonBlankArea
  let index := groupedIndex main_df
  let ave_df := countries.flatMap fun country =>
    crops.flatMap fun crop =>
      years.map fun year =>
        let b := index (country, crop, year)
        { area := country, item := crop, year := year,
          yieldT := pfMean (b.map RawRecord.yieldT),
          rainfall := pfMean (b.map RawRecord.rainfall),
          pesticides := pfMean (b.map RawRecord.pesticides),
          temp := pfMean (b.map RawRecord.temp) }
  let ave_df := ave_df.filter fun a => !a.yieldT.isNan
  List.insertionSort aggLE ave_df

/-- Line 180 of `app.py`: `ave_df[ave_df['Area'] == country_sec2]`. -/
def country_sec2_df (ave_df : List AggRecord) (country : String) : List AggRecord :=
  ave_df.filter fun a => a.area == country

/-- Line 183's `groupby('Year')['Yield (Tonnes)'].transform(sum)` at a
given year: the sum of the yield column over the rows of that year. -/
def year_total (rows : List AggRecord) (y : Int) : PFloat :=
  pfSum ((rows.filter fun a => a.year == y).map AggRecord.yieldT)

/-- Lines 182–183 of `app.py`: the `Normalised Yield (Tonnes)` column,
`100 * yield / transform(sum)` computed row by row. -/
def normalised_yield_col (rows : List AggRecord) : List PFloat :=
  rows.map fun a => PFloat.div (PFloat.scale 100 a.yieldT) (year_total rows a.year)

/-- Line 211 of `app.py`: the `Yield/ Pesticides` cell of one row. -/
def yield_per_pesticides (a : AggRecord) : PFloat :=
  PFloat.div a.yieldT a.pesticides

/-- Line 224 of `app.py`: the `Yield/ Rainfall` cell of one row. -/
def yield_per_rainfall (a : AggRecord) : PFloat :=
  PFloat.div a.yieldT a.rainfall

/-! ### Concrete data used to instantiate theorems -/

/-- The two-row example table of the spec's testable properties. -/
def exRecords : List RawRecord :=
  [⟨"A", "Wheat", 2000, 10, 100, 1, 20⟩,
   ⟨"A", "Wheat", 2000, 20, 120, 1, 22⟩]

/-- The averaged row the example is expected to produce. -/
def exRow : AggRecord :=
  ⟨"A", "Wheat", 2000, .val 15, .val 110, .val 1, .val 21⟩

/-- A one-row table with zero pesticide use and zero rainfall. -/
def exRecordsZero : List RawRecord :=
  [⟨"A", "Wheat", 2000, 10, 0, 0, 20⟩]

/-- The averaged row produced from `exRecordsZero`. -/
def exRowZero : AggRecord :=
  ⟨"A", "Wheat", 2000, .val 10, .val 0, .val 0, .val 20⟩

/-! ### Helper lemmas -/

/-- The mean only depends on the multiset of entries. -/
lemma pfMean_perm {l₁ l₂ : List ℚ} (h : l₁.Perm l₂) : pfMean l₁ = pfMean l₂ := by
  unfold pfMean
  rw [h.length_eq, h.sum_eq]

lemma pfMean_isNan (l : List ℚ) : (pfMean l).isNan = decide (l.length = 0) := by
  unfold pfMean
  split <;> simp_all [PFloat.isNan]

lemma pfMean_of_ne_nil {l : List ℚ} (h : l.length ≠ 0) :
    pfMean l = PFloat.val (l.sum / (l.length : ℚ)) := by
  unfold pfMean
  simp [h]

/-- The three successive equality filters collapse to the single
`matchKey` filter. -/
lemma bucket_eq_unsorted (df : List RawRecord) (c cr : String) (y : Int) :
    ((((df.filter nonBlankArea).filter fun r => r.area == c).filter
        fun r => r.item == cr).filter fun r => r.year == y) = dfBucket df c cr y := by
  unfold dfBucket
  simp only [List.filter_filter]
  apply List.filter_congr
  intro r _
  unfold matchKey
  cases r.area == c <;> cases r.item == cr <;> cases r.year == y <;> rfl

/-- The three successive equality filters of the source, taken over the
sorted survivor table, select (a permutation of) `dfBucket`. -/
lemma bucket_perm (df : List RawRecord) (c cr : String) (y : Int) :
    ((((List.insertionSort rawLE (df.filter nonBlankArea)).filter fun r => r.area == c).filter
        fun r => r.item == cr).filter fun r => r.year == y).Perm
      (dfBucket df c cr y) := by
  have h1 : (List.insertionSort rawLE (df.filter nonBlankArea)).Perm
      (df.filter nonBlankArea) := List.perm_insertionSort _ _
  have h2 := ((h1.filter (fun r => r.area == c)).filter
      (fun r => r.item == cr)).filter (fun r => r.year == y)
  exact (bucket_eq_unsorted df c cr y) ▸ h2

/-- The record the source builds for one triple equals `row` (the
bucket passes through the sort only as a permutation). -/
lemma inner_row_eq (df : List RawRecord) (c cr : String) (y : Int) :
    ({ area := c, item := cr, year := y,
       yieldT := pfMean (((((List.insertionSort rawLE (df.filter nonBlankArea)).filter
          fun r => r.area == c).filter fun r => r.item == cr).filter
            fun r => r.year == y).map RawRecord.yieldT),
       rainfall := pfMean (((((List.insertionSort rawLE (df.filter nonBlankArea)).filter
          fun r => r.area == c).filter fun r => r.item == cr).filter
            fun r => r.year == y).map RawRecord.rainfall),
       pesticides := pfMean (((((List.insertionSort rawLE (df.filter nonBlankArea)).filter
          fun r => r.area == c).filter fun r => r.item == cr).filter
            fun r => r.year == y).map RawRecord.pesticides),
       temp := pfMean (((((List.insertionSort rawLE (df.filter nonBlankArea)).filter
          fun r => r.area == c).filter fun r => r.item == cr).filter
            fun r => r.year == y).map RawRecord.temp) } : AggRecord) = row df c cr y := by
  have h := bucket_perm df c cr y
  unfold row
  simp only [AggRecord.mk.injEq]
  exact ⟨trivial, trivial, trivial, pfMean_perm (h.map _), pfMean_perm (h.map _),
    pfMean_perm (h.map _), pfMean_perm (h.map _)⟩

/-- Membership characterisation of the aggregator's output: exactly the
rows built from a candidate triple whose bucket is non-empty. -/
lemma mem_clean_iff (df : List RawRecord) (cs crs : List String) (ys : List Int)
    (a : AggRecord) :
    a ∈ clean_average_data df cs crs ys ↔
      ∃ c ∈ cs, ∃ cr ∈ crs, ∃ y ∈ ys,
        a = row df c cr y ∧ dfBucket df c cr y ≠ [] := by
  unfold clean_average_data
  simp only [List.mem_insertionSort, List.mem_filter, List.mem_flatMap, List.mem_map]
  constructor
  · rintro ⟨⟨c, hc, cr, hcr, y, hy, hrec⟩, hnan⟩
    refine ⟨c, hc, cr, hcr, y, hy, ?_, ?_⟩
    · rw [← hrec, inner_row_eq]
    · rw [← hrec] at hnan
      rw [inner_row_eq] at hnan
      intro hnil
      rw [show (row df c cr y).yieldT
            = pfMean ((dfBucket df c cr y).map RawRecord.yieldT) from rfl,
        pfMean_isNan] at hnan
      simp [hnil] at hnan
  · rintro ⟨c, hc, cr, hcr, y, hy, rfl, hne⟩
    refine ⟨⟨c, hc, cr, hcr, y, hy, inner_row_eq df c cr y⟩, ?_⟩
    rw [show (row df c cr y).yieldT
          = pfMean ((dfBucket df c cr y).map RawRecord.yieldT) from rfl,
      pfMean_isNan]
    simpa using hne

lemma matchKey_area {c cr : String} {y : Int} {r : RawRecord}
    (h : matchKey c cr y r = true) : r.area = c ∧ r.item = cr ∧ r.year = y := by
  unfold matchKey at h
  simp only [Bool.and_eq_true, beq_iff_eq] at h
  tauto

lemma mem_dfBucket {df : List RawRecord} {c cr : String} {y : Int} {r : RawRecord} :
    r ∈ dfBucket df c cr y ↔
      r ∈ df ∧ nonBlankArea r = true ∧ matchKey c cr y r = true := by
  unfold dfBucket
  simp only [List.mem_filter]
  tauto

/-- A non-empty bucket forces its candidate country to be non-blank:
the bucket's rows passed the blank filter and carry that country. -/
lemma bucket_ne_nil_blank {df : List RawRecord} {c cr : String} {y : Int}
    (h : dfBucket df c cr y ≠ []) : c.data.all Char.isWhitespace = false := by
  obtain ⟨r, hr⟩ := List.exists_mem_of_ne_nil _ h
  obtain ⟨-, hnb, hm⟩ := mem_dfBucket.mp hr
  obtain ⟨harea, -, -⟩ := matchKey_area hm
  unfold nonBlankArea at hnb
  rw [harea] at hnb
  simpa using hnb

/-- For a non-blank candidate country the blank filter is invisible:
the bucket is just the matching subset of the raw table. -/
lemma dfBucket_eq_full (df : List RawRecord) (c cr : String) (y : Int)
    (h : c.data.all Char.isWhitespace = false) :
    dfBucket df c cr y = df.filter (matchKey c cr y) := by
  unfold dfBucket
  rw [List.filter_filter]
  apply List.filter_congr
  intro r _
  cases hm : matchKey c cr y r
  · simp
  · obtain ⟨harea, -, -⟩ := matchKey_area hm
    simp [nonBlankArea, harea, h]

lemma row_field_mean {df : List RawRecord} {c cr : String} {y : Int}
    (f : RawRecord → ℚ) (hne : dfBucket df c cr y ≠ []) :
    pfMean ((dfBucket df c cr y).map f) =
      PFloat.val (((dfBucket df c cr y).map f).sum / ((dfBucket df c cr y).length : ℚ)) := by
  have hlen : ((dfBucket df c cr y).map f).length ≠ 0 := by
    simpa [List.length_eq_zero] using hne
  rw [pfMean_of_ne_nil hlen, List.length_map]

/-! ### Claims -/

/-- C1: every `AggregatedRecord` emitted by `clean_average_data` has its
`mean_yield`, `mean_rainfall`, `mean_pesticides` and `mean_temperature`
equal to the arithmetic mean of the corresponding numeric field over
exactly the raw records whose (country, crop, year) match the record's
triple — string equality on country/crop, integer equality on year —
and that matching set is non-empty. -/
theorem c1_emitted_means (df : List RawRecord) (countries crops : List String)
    (years : List Int) (a : AggRecord)
    (ha : a ∈ clean_average_data df countries crops years) :
    df.filter (matchKey a.area a.item a.year) ≠ [] ∧
    a.yieldT = PFloat.val
      (((df.filter (matchKey a.area a.item a.year)).map RawRecord.yieldT).sum /
        ((df.filter (matchKey a.area a.item a.year)).length : ℚ)) ∧
    a.rainfall = PFloat.val
      (((df.filter (matchKey a.area a.item a.year)).map RawRecord.rainfall).sum /
        ((df.filter (matchKey a.area a.item a.year)).length : ℚ)) ∧
    a.pesticides = PFloat.val
      (((df.filter (matchKey a.area a.item a.year)).map RawRecord.pesticides).sum /
        ((df.filter (matchKey a.area a.item a.year)).length : ℚ)) ∧
    a.temp = PFloat.val
      (((df.filter (matchKey a.area a.item a.year)).map RawRecord.temp).sum /
        ((df.filter (matchKey a.area a.item a.year)).length : ℚ)) := by
  rw [mem_clean_iff] at ha
  obtain ⟨c, -, cr, -, y, -, rfl, hne⟩ := ha
  have hfull : dfBucket df c cr y = df.filter (matchKey c cr y) :=
    dfBucket_eq_full df c cr y (bucket_ne_nil_blank hne)
  have hkey : matchKey (row df c cr y).area (row df c cr y).item (row df c cr y).year
      = matchKey c cr y := rfl
  rw [hkey, ← hfull]
  exact ⟨hne, row_field_mean RawRecord.yieldT hne, row_field_mean RawRecord.rainfall hne,
    row_field_mean RawRecord.pesticides hne, row_field_mean RawRecord.temp hne⟩

/-- Witness for C1 at the spec's two-row example. -/
theorem c1_emitted_means_witness :
    exRow ∈ clean_average_data exRecords ["A"] ["Wheat"] [2000] ∧
    (exRecords.filter (matchKey exRow.area exRow.item exRow.year) ≠ [] ∧
     exRow.yieldT = PFloat.val
       (((exRecords.filter (matchKey exRow.area exRow.item exRow.year)).map RawRecord.yieldT).sum /
         ((exRecords.filter (matchKey exRow.area exRow.item exRow.year)).length : ℚ)) ∧
     exRow.rainfall = PFloat.val
       (((exRecords.filter (matchKey exRow.area exRow.item exRow.year)).map RawRecord.rainfall).sum /
         ((exRecords.filter (matchKey exRow.area exRow.item exRow.year)).length : ℚ)) ∧
     exRow.pesticides = PFloat.val
       (((exRecords.filter (matchKey exRow.area exRow.item exRow.year)).map RawRecord.pesticides).sum /
         ((exRecords.filter (matchKey exRow.area exRow.item exRow.year)).length : ℚ)) ∧
     exRow.temp = PFloat.val
       (((exRecords.filter (matchKey exRow.area exRow.item exRow.year)).map RawRecord.temp).sum /
         ((exRecords.filter (matchKey exRow.area exRow.item exRow.year)).length : ℚ))) :=
  ⟨by decide, c1_emitted_means exRecords ["A"] ["Wheat"] [2000] exRow (by decide)⟩

/-- C2: an `AggregatedRecord` for a triple of the cross product is
emitted iff at least one surviving (non-blank) raw record matches it;
a triple with no matching surviving record — any candidate key absent
from the records included — is absent from the output entirely. -/
theorem c2_emitted_iff_matching (df : List RawRecord) (countries crops : List String)
    (years : List Int) (c cr : String) (y : Int) :
    ((∃ a ∈ clean_average_data df countries crops years,
        a.area = c ∧ a.item = cr ∧ a.year = y) →
      ∃ r ∈ df, nonBlankArea r = true ∧ matchKey c cr y r = true) ∧
    (c ∈ countries → cr ∈ crops → y ∈ years →
      (∃ r ∈ df, nonBlankArea r = true ∧ matchKey c cr y r = true) →
      ∃ a ∈ clean_average_data df countries crops years,
        a.area = c ∧ a.item = cr ∧ a.year = y) := by
  constructor
  · rintro ⟨a, ha, hkc, hkcr, hky⟩
    rw [mem_clean_iff] at ha
    obtain ⟨c', -, cr', -, y', -, rfl, hne⟩ := ha
    have hc : c' = c := hkc
    have hcr : cr' = cr := hkcr
    have hy : y' = y := hky
    subst hc hcr hy
    obtain ⟨r, hr⟩ := List.exists_mem_of_ne_nil _ hne
    obtain ⟨hrdf, hnb, hm⟩ := mem_dfBucket.mp hr
    exact ⟨r, hrdf, hnb, hm⟩
  · rintro hc hcr hy ⟨r, hrdf, hnb, hm⟩
    have hne : dfBucket df c cr y ≠ [] :=
      List.ne_nil_of_mem (mem_dfBucket.mpr ⟨hrdf, hnb, hm⟩)
    exact ⟨row df c cr y,
      (mem_clean_iff df countries crops years _).mpr ⟨c, hc, cr, hcr, y, hy, rfl, hne⟩,
      rfl, rfl, rfl⟩

/-- Witness for C2: both directions at the example table (a matching
record exists, so the "A"/"Wheat"/2000 row is emitted, and conversely
the emitted row yields a surviving matching record). -/
theorem c2_emitted_iff_matching_witness :
    (∃ a ∈ clean_average_data exRecords ["A"] ["Wheat"] [2000],
      a.area = "A" ∧ a.item = "Wheat" ∧ a.year = 2000) ∧
    (∃ r ∈ exRecords, nonBlankArea r = true ∧ matchKey "A" "Wheat" 2000 r = true) := by
  have h := c2_emitted_iff_matching exRecords ["A"] ["Wheat"] [2000] "A" "Wheat" 2000
  have hmem : ∃ r ∈ exRecords, nonBlankArea r = true ∧ matchKey "A" "Wheat" 2000 r = true :=
    ⟨⟨"A", "Wheat", 2000, 10, 100, 1, 20⟩, by decide, by decide, by decide⟩
  have hout := h.2 (by decide) (by decide) (by decide) hmem
  exact ⟨hout, h.1 hout⟩

/-- C3: raw records whose country is empty or whitespace-only are
discarded before aggregation — any raw record matching the triple of an
emitted record is non-blank, so blank rows never contribute to any
emitted record's matching set (and hence to its means). -/
theorem c3_blank_discarded (df : List RawRecord) (countries crops : List String)
    (years : List Int) (a : AggRecord)
    (ha : a ∈ clean_average_data df countries crops years)
    (r : RawRecord) (_hr : r ∈ df)
    (hm : matchKey a.area a.item a.year r = true) :
    nonBlankArea r = true := by
  rw [mem_clean_iff] at ha
  obtain ⟨c, -, cr, -, y, -, rfl, hne⟩ := ha
  have hm' : matchKey c cr y r = true := hm
  obtain ⟨harea, -, -⟩ := matchKey_area hm'
  have hblank := bucket_ne_nil_blank hne
  unfold nonBlankArea
  rw [harea, hblank]
  rfl

/-- Witness for C3 at the example: the first example record matches the
emitted row's triple, so it must be non-blank. -/
theorem c3_blank_discarded_witness :
    nonBlankArea ⟨"A", "Wheat", 2000, 10, 100, 1, 20⟩ = true :=
  c3_blank_discarded exRecords ["A"] ["Wheat"] [2000] exRow (by decide)
    ⟨"A", "Wheat", 2000, 10, 100, 1, 20⟩ (by decide) (by decide)

/-- C4: for every input, the aggregator's output is sorted ascending by
the pair (country, year). -/
theorem c4_output_sorted (df : List RawRecord) (countries crops : List String)
    (years : List Int) :
    List.Sorted aggLE (clean_average_data df countries crops years) :=
  List.sorted_insertionSort aggLE _

/-- C6: the aggregator is a deterministic pure function of its inputs —
identical inputs give identical output sequences, the order of tied
crop rows included. -/
theorem c6_deterministic (df₁ df₂ : List RawRecord) (cs₁ cs₂ crs₁ crs₂ : List String)
    (ys₁ ys₂ : List Int) (hdf : df₁ = df₂) (hcs : cs₁ = cs₂) (hcrs : crs₁ = crs₂)
    (hys : ys₁ = ys₂) :
    clean_average_data df₁ cs₁ crs₁ ys₁ = clean_average_data df₂ cs₂ crs₂ ys₂ := by
  subst hdf hcs hcrs hys
  rfl

/-- Witness for C6: two runs on the example input agree. -/
theorem c6_deterministic_witness :
    clean_average_data exRecords ["A"] ["Wheat"] [2000] =
      clean_average_data exRecords ["A"] ["Wheat"] [2000] :=
  c6_deterministic exRecords exRecords ["A"] ["A"] ["Wheat"] ["Wheat"] [2000] [2000]
    rfl rfl rfl rfl

/-- C7: the aggregator raises no error condition on any input — the
exception-aware embedding always returns `ok` with the pure result, and
triples with missing data are silently omitted: every emitted row has
all four mean fields finite (no null/NaN placeholder row is reported). -/
theorem c7_no_error (df : List RawRecord) (countries crops : List String)
    (years : List Int) :
    clean_average_dataE df countries crops years
        = Except.ok (clean_average_data df countries crops years) ∧
    ∀ a ∈ clean_average_data df countries crops years,
      a.yieldT.isFinite = true ∧ a.rainfall.isFinite = true ∧
      a.pesticides.isFinite = true ∧ a.temp.isFinite = true := by
  refine ⟨rfl, ?_⟩
  intro a ha
  rw [mem_clean_iff] at ha
  obtain ⟨c, -, cr, -, y, -, rfl, hne⟩ := ha
  refine ⟨?_, ?_, ?_, ?_⟩
  · rw [show (row df c cr y).yieldT = pfMean ((dfBucket df c cr y).map RawRecord.yieldT)
      from rfl, row_field_mean RawRecord.yieldT hne]
    rfl
  · rw [show (row df c cr y).rainfall = pfMean ((dfBucket df c cr y).map RawRecord.rainfall)
      from rfl, row_field_mean RawRecord.rainfall hne]
    rfl
  · rw [show (row df c cr y).pesticides
        = pfMean ((dfBucket df c cr y).map RawRecord.pesticides)
      from rfl, row_field_mean RawRecord.pesticides hne]
    rfl
  · rw [show (row df c cr y).temp = pfMean ((dfBucket df c cr y).map RawRecord.temp)
      from rfl, row_field_mean RawRecord.temp hne]
    rfl

/-- Witness for C7 at the example input. -/
theorem c7_no_error_witness :
    clean_average_dataE exRecords ["A"] ["Wheat"] [2000]
        = Except.ok (clean_average_data exRecords ["A"] ["Wheat"] [2000]) ∧
    (exRow.yieldT.isFinite = true ∧ exRow.rainfall.isFinite = true ∧
     exRow.pesticides.isFinite = true ∧ exRow.temp.isFinite = true) :=
  ⟨(c7_no_error exRecords ["A"] ["Wheat"] [2000]).1,
   (c7_no_error exRecords ["A"] ["Wheat"] [2000]).2 exRow (by decide)⟩

/-- Dividing anything by a finite zero never produces a finite value:
the quotient is an infinity or NaN, and the (total) division raises
nothing. -/
lemma pfDiv_zero_isFinite (x : PFloat) :
    (PFloat.div x (PFloat.val 0)).isFinite = false := by
  cases x with
  | val q =>
    dsimp only [PFloat.div]
    rw [if_pos rfl]
    split_ifs <;> rfl
  | inf =>
    dsimp only [PFloat.div]
    rw [if_pos le_rfl]
    rfl
  | ninf =>
    dsimp only [PFloat.div]
    rw [if_pos le_rfl]
    rfl
  | nan => rfl

/-- C9: for every row of the aggregated table, the derived ratios
yield-per-pesticide-tonne and yield-per-mm-rainfall with a zero
denominator are an explicit non-finite value (infinity or NaN); the
division is total, so no arithmetic fault is ever raised. -/
theorem c9_zero_denominator_ratio (df : List RawRecord) (countries crops : List String)
    (years : List Int) (a : AggRecord)
    (_ha : a ∈ clean_average_data df countries crops years) :
    (a.pesticides = PFloat.val 0 → (yield_per_pesticides a).isFinite = false) ∧
    (a.rainfall = PFloat.val 0 → (yield_per_rainfall a).isFinite = false) := by
  constructor
  · intro h0
    unfold yield_per_pesticides
    rw [h0]
    exact pfDiv_zero_isFinite _
  · intro h0
    unfold yield_per_rainfall
    rw [h0]
    exact pfDiv_zero_isFinite _

/-- Witness for C9 at the zero-pesticide, zero-rainfall example row. -/
theorem c9_zero_denominator_ratio_witness :
    (yield_per_pesticides exRowZero).isFinite = false ∧
    (yield_per_rainfall exRowZero).isFinite = false :=
  ⟨(c9_zero_denominator_ratio exRecordsZero ["A"] ["Wheat"] [2000] exRowZero
      (by decide)).1 (by decide),
   (c9_zero_denominator_ratio exRecordsZero ["A"] ["Wheat"] [2000] exRowZero
      (by decide)).2 (by decide)⟩

lemma matchKey_eq_decide (c cr : String) (y : Int) (r : RawRecord) :
    matchKey c cr y r = decide ((r.area, r.item, r.year) = (c, cr, y)) := by
  rw [Bool.eq_iff_iff]
  simp [matchKey, Prod.ext_iff, and_assoc]

lemma groupedIndex_cons (r : RawRecord) (t : List RawRecord)
    (k : String × String × Int) :
    groupedIndex (r :: t) k =
      if (r.area, r.item, r.year) = k then r :: groupedIndex t k else groupedIndex t k := rfl

/-- The one-pass index selects exactly the rows matching each key. -/
lemma groupedIndex_eq (main : List RawRecord) (c cr : String) (y : Int) :
    groupedIndex main (c, cr, y) = main.filter (matchKey c cr y) := by
  induction main with
  | nil => rfl
  | cons r t ih =>
    rw [groupedIndex_cons, List.filter_cons]
    by_cases h : (r.area, r.item, r.year) = (c, cr, y)
    · rw [if_pos h, ih, if_pos (by rw [matchKey_eq_decide]; exact decide_eq_true h)]
    · rw [if_neg h, ih, if_neg (by rw [matchKey_eq_decide]; simp [h])]

/-- `clean_average_data` in canonical form: the emitted rows are the
`row`s of the candidate cross product, filtered on a defined mean yield
and sorted. -/
lemma clean_average_data_eq_rows (df : List RawRecord) (cs crs : List String)
    (ys : List Int) :
    clean_average_data df cs crs ys =
      List.insertionSort aggLE
        ((cs.flatMap fun c => crs.flatMap fun cr => ys.map fun y => row df c cr y).filter
          fun a => !a.yieldT.isNan) := by
  unfold clean_average_data
  refine congrArg (List.insertionSort aggLE) ?_
  refine congrArg (fun l : List AggRecord => List.filter (fun a => !a.yieldT.isNan) l) ?_
  refine congrArg (List.flatMap cs) (funext fun c => ?_)
  refine congrArg (List.flatMap crs) (funext fun cr => ?_)
  exact congrArg (fun f => List.map f ys) (funext fun y => inner_row_eq df c cr y)

/-- C5: the naive triple-nested cross-product selection and the
grouped-index implementation are functionally equivalent — they produce
the same output on every input. -/
theorem c5_grouped_index_equivalent (df : List RawRecord) (countries crops : List String)
    (years : List Int) :
    grouped_average_data df countries crops years =
      clean_average_data df countries crops years := by
  rw [clean_average_data_eq_rows]
  unfold grouped_average_data
  refine congrArg (List.insertionSort aggLE) ?_
  refine congrArg (fun l : List AggRecord => List.filter (fun a => !a.yieldT.isNan) l) ?_
  refine congrArg (List.flatMap countries) (funext fun c => ?_)
  refine congrArg (List.flatMap crops) (funext fun cr => ?_)
  refine congrArg (fun f => List.map f years) (funext fun y => ?_)
  rw [groupedIndex_eq]
  rfl

/-- Every emitted row's mean yield is a finite value. -/
lemma output_yield_val {df : List RawRecord} {cs crs : List String} {ys : List Int}
    {a : AggRecord} (ha : a ∈ clean_average_data df cs crs ys) :
    ∃ q : ℚ, a.yieldT = PFloat.val q := by
  rw [mem_clean_iff] at ha
  obtain ⟨c, -, cr, -, y, -, rfl, hne⟩ := ha
  exact ⟨_, by
    rw [show (row df c cr y).yieldT = pfMean ((dfBucket df c cr y).map RawRecord.yieldT)
      from rfl, row_field_mean RawRecord.yieldT hne]⟩

lemma foldl_pfAdd_val (l : List PFloat) (h : ∀ x ∈ l, ∃ q : ℚ, x = PFloat.val q)
    (a : ℚ) :
    l.foldl PFloat.add (PFloat.val a) = PFloat.val (a + (l.map PFloat.toRat).sum) := by
  induction l generalizing a with
  | nil => simp
  | cons x t ih =>
    obtain ⟨q, rfl⟩ := h x (List.mem_cons_self x t)
    rw [List.foldl_cons]
    show List.foldl PFloat.add (PFloat.val (a + q)) t = _
    rw [ih (fun z hz => h z (List.mem_cons_of_mem _ hz)) (a + q)]
    simp [PFloat.toRat, add_assoc]

/-- `sum` of a column of finite values is the finite value of the
rational sum. -/
lemma pfSum_val (l : List PFloat) (h : ∀ x ∈ l, ∃ q : ℚ, x = PFloat.val q) :
    pfSum l = PFloat.val ((l.map PFloat.toRat).sum) := by
  unfold pfSum
  rw [foldl_pfAdd_val l h 0, zero_add]

/-- C8: for a fixed country, every row of that country's aggregated
table gets a normalised yield equal to 100 times its mean yield divided
by the sum of mean yields over the country's rows of the same year
(its percentage share of that year's total, when that total is
nonzero); the mean yields involved are finite and the per-year total
the code computes is their exact rational sum. -/
theorem c8_normalised_yield (df : List RawRecord) (countries crops : List String)
    (years : List Int) (country : String) (i : ℕ)
    (hi : i < (country_sec2_df (clean_average_data df countries crops years) country).length)
    (hi2 : i < (normalised_yield_col
      (country_sec2_df (clean_average_data df countries crops years) country)).length) :
    let rows := country_sec2_df (clean_average_data df countries crops years) country
    let a := rows.get ⟨i, hi⟩
    let s := ((rows.filter fun b => b.year == a.year).map fun b => b.yieldT.toRat).sum
    a.yieldT = PFloat.val a.yieldT.toRat ∧
    year_total rows a.year = PFloat.val s ∧
    (s ≠ 0 →
      (normalised_yield_col rows).get ⟨i, hi2⟩ =
        PFloat.val (100 * a.yieldT.toRat / s)) := by
  intro rows a s
  have hval : ∀ b ∈ rows, ∃ q : ℚ, b.yieldT = PFloat.val q := by
    intro b hb
    exact output_yield_val (List.mem_filter.mp hb).1
  have hmem : a ∈ rows := List.get_mem rows i hi
  obtain ⟨qa, hqa⟩ := hval a hmem
  have htot : year_total rows a.year = PFloat.val s := by
    unfold year_total
    rw [pfSum_val _ (by
      intro x hx
      obtain ⟨b, hb, rfl⟩ := List.mem_map.mp hx
      exact hval b (List.mem_filter.mp hb).1)]
    rw [List.map_map]
    rfl
  refine ⟨by rw [hqa]; rfl, htot, ?_⟩
  intro hs
  have hcol : (normalised_yield_col rows).get ⟨i, hi2⟩ =
      PFloat.div (PFloat.scale 100 a.yieldT) (year_total rows a.year) := by
    unfold normalised_yield_col
    simp only [List.get_eq_getElem, List.getElem_map]
    rfl
  rw [hcol, htot, hqa]
  show PFloat.div (PFloat.val (100 * qa)) (PFloat.val s) = _
  dsimp only [PFloat.div]
  rw [if_neg hs]
  rfl

/-- Witness for C8 at the example table, country "A", row 0: the single
Wheat row holds 100 % of its year's yield. -/
theorem c8_normalised_yield_witness :
    (normalised_yield_col (country_sec2_df
        (clean_average_data exRecords ["A"] ["Wheat"] [2000]) "A")).get
      ⟨0, by decide⟩ = PFloat.val 100 := by
  have h := c8_normalised_yield exRecords ["A"] ["Wheat"] [2000] "A" 0
    (by decide) (by decide)
  exact (h.2.2 (by decide)).trans (by decide)

lemma row_area (df : List RawRecord) (c cr : String) (y : Int) :
    (row df c cr y).area = c := rfl

lemma row_item (df : List RawRecord) (c cr : String) (y : Int) :
    (row df c cr y).item = cr := rfl

lemma row_year (df : List RawRecord) (c cr : String) (y : Int) :
    (row df c cr y).year = y := rfl

/-- The emitted row's mean yield is NaN exactly when its bucket is
empty. -/
lemma row_yield_isNan (df : List RawRecord) (c cr : String) (y : Int) :
    (row df c cr y).yieldT.isNan = decide (dfBucket df c cr y = []) := by
  rw [show (row df c cr y).yieldT = pfMean ((dfBucket df c cr y).map RawRecord.yieldT)
    from rfl, pfMean_isNan, decide_eq_decide]
  simp [List.length_eq_zero]

lemma countP_flatMap {α β : Type} (p : β → Bool) (f : α → List β) (l : List α) :
    List.countP p (l.flatMap f) = (l.map fun x => List.countP p (f x)).sum := by
  induction l with
  | nil => rfl
  | cons x t ih => simp [List.flatMap_cons, List.countP_append, ih]

lemma sum_map_ite {α : Type} [DecidableEq α] (l : List α) (t : α) (K : ℕ) :
    (l.map fun x => if x = t then K else 0).sum = l.count t * K := by
  induction l with
  | nil => simp
  | cons x xs ih =>
    by_cases h : x = t
    · subst h
      rw [List.map_cons, List.sum_cons, if_pos rfl, ih, List.count_cons]
      simp [Nat.add_mul, Nat.add_comm]
    · rw [List.map_cons, List.sum_cons, if_neg h, ih, List.count_cons]
      have hne : (x == t) = false := by simpa using h
      rw [hne]
      simp

/-- C10: the aggregator iterates the candidate collections with
multiplicity — the number of output rows carrying the key
(c, cr, y) is the product of the key's multiplicities in the three
candidate collections when the key has matching data, and `0`
otherwise; in particular duplicate-free candidate collections give at
most one output row per distinct triple. -/
theorem c10_candidate_multiplicity (df : List RawRecord) (countries crops : List String)
    (years : List Int) (c cr : String) (y : Int) :
    ((clean_average_data df countries crops years).countP
        (fun a => a.area == c && a.item == cr && a.year == y) =
      if dfBucket df c cr y = [] then 0
      else countries.count c * (crops.count cr * years.count y)) ∧
    (countries.Nodup → crops.Nodup → years.Nodup →
      (clean_average_data df countries crops years).countP
        (fun a => a.area == c && a.item == cr && a.year == y) ≤ 1) := by
  have hyears : ∀ c' cr', List.countP
      (fun a => (a.area == c && a.item == cr && a.year == y) && !a.yieldT.isNan)
      (years.map fun y' => row df c' cr' y') =
      if c' = c ∧ cr' = cr then
        (if dfBucket df c cr y = [] then 0 else years.count y) else 0 := by
    intro c' cr'
    rw [List.countP_map]
    by_cases hc' : c' = c
    · by_cases hcr' : cr' = cr
      · rw [hc', hcr', if_pos ⟨rfl, rfl⟩]
        by_cases hb : dfBucket df c cr y = []
        · rw [if_pos hb]
          apply List.countP_eq_zero.mpr
          intro y' _
          by_cases hy' : y' = y
          · subst hy'
            simp [Function.comp, row_area, row_item, row_year, row_yield_isNan, hb]
          · simp [Function.comp, row_area, row_item, row_year, hy']
        · rw [if_neg hb, List.count_eq_countP]
          apply List.countP_congr
          intro y' _
          simp only [Function.comp, row_area, row_item, row_year, row_yield_isNan,
            Bool.and_eq_true, beq_iff_eq, Bool.not_eq_true', decide_eq_false_iff_not]
          constructor
          · rintro ⟨⟨-, hyy⟩, -⟩
            simpa using hyy
          · intro hyy
            have hy' : y' = y := by simpa using hyy
            subst hy'
            exact ⟨by simp, hb⟩
      · rw [if_neg (by tauto)]
        apply List.countP_eq_zero.mpr
        intro y' _
        simp [Function.comp, row_area, row_item, row_year, hcr']
    · rw [if_neg (by tauto)]
      apply List.countP_eq_zero.mpr
      intro y' _
      simp [Function.comp, row_area, row_item, row_year, hc']
  have hcrops : ∀ c', List.countP
      (fun a => (a.area == c && a.item == cr && a.year == y) && !a.yieldT.isNan)
      (crops.flatMap fun cr' => years.map fun y' => row df c' cr' y') =
      if c' = c then
        crops.count cr * (if dfBucket df c cr y = [] then 0 else years.count y)
      else 0 := by
    intro c'
    rw [countP_flatMap]
    by_cases hc' : c' = c
    · rw [if_pos hc']
      have : (crops.map fun cr' => List.countP
          (fun a => (a.area == c && a.item == cr && a.year == y) && !a.yieldT.isNan)
          (years.map fun y' => row df c' cr' y')) =
          crops.map fun cr' => if cr' = cr then
            (if dfBucket df c cr y = [] then 0 else years.count y) else 0 := by
        apply List.map_congr_left
        intro cr' _
        rw [hyears c' cr']
        by_cases hcr' : cr' = cr
        · rw [if_pos ⟨hc', hcr'⟩, if_pos hcr']
        · rw [if_neg (by tauto), if_neg hcr']
      rw [this, sum_map_ite]
    · rw [if_neg hc']
      have : (crops.map fun cr' => List.countP
          (fun a => (a.area == c && a.item == cr && a.year == y) && !a.yieldT.isNan)
          (years.map fun y' => row df c' cr' y')) = crops.map fun _ => 0 := by
        apply List.map_congr_left
        intro cr' _
        rw [hyears c' cr', if_neg (by tauto)]
      rw [this]
      simp
  have hmain : (clean_average_data df countries crops years).countP
      (fun a => a.area == c && a.item == cr && a.year == y) =
      if dfBucket df c cr y = [] then 0
      else countries.count c * (crops.count cr * years.count y) := by
    rw [clean_average_data_eq_rows]
    rw [(List.perm_insertionSort aggLE _).countP_eq]
    rw [List.countP_filter]
    rw [countP_flatMap]
    have : (countries.map fun c' => List.countP
        (fun a => (a.area == c && a.item == cr && a.year == y) && !a.yieldT.isNan)
        (crops.flatMap fun cr' => years.map fun y' => row df c' cr' y')) =
        countries.map fun c' => if c' = c then
          crops.count cr * (if dfBucket df c cr y = [] then 0 else years.count y)
        else 0 := by
      apply List.map_congr_left
      intro c' _
      exact hcrops c'
    rw [this, sum_map_ite]
    by_cases hb : dfBucket df c cr y = []
    · simp [hb]
    · rw [if_neg hb, if_neg hb]
  refine ⟨hmain, ?_⟩
  intro hnc hncr hny
  rw [hmain]
  by_cases hb : dfBucket df c cr y = []
  · simp [hb]
  · rw [if_neg hb]
    have h1 : countries.count c ≤ 1 := List.nodup_iff_count_le_one.mp hnc c
    have h2 : crops.count cr ≤ 1 := List.nodup_iff_count_le_one.mp hncr cr
    have h3 : years.count y ≤ 1 := List.nodup_iff_count_le_one.mp hny y
    calc countries.count c * (crops.count cr * years.count y)
        ≤ 1 * (1 * 1) := Nat.mul_le_mul h1 (Nat.mul_le_mul h2 h3)
      _ = 1 := rfl

/-- Witness for C10: with the country "A" listed twice the example row
is emitted twice; with duplicate-free candidates at most once. -/
theorem c10_candidate_multiplicity_witness :
    ((clean_average_data exRecords ["A", "A"] ["Wheat"] [2000]).countP
        (fun a => a.area == "A" && a.item == "Wheat" && a.year == 2000) =
      if dfBucket exRecords "A" "Wheat" 2000 = [] then 0
      else ["A", "A"].count "A" * (["Wheat"].count "Wheat" * [(2000 : Int)].count 2000)) ∧
    (clean_average_data exRecords ["A"] ["Wheat"] [2000]).countP
        (fun a => a.area == "A" && a.item == "Wheat" && a.year == 2000) ≤ 1 :=
  ⟨(c10_candidate_multiplicity exRecords ["A", "A"] ["Wheat"] [2000] "A" "Wheat" 2000).1,
   (c10_candidate_multiplicity exRecords ["A"] ["Wheat"] [2000] "A" "Wheat" 2000).2
     (by decide) (by decide) (by decide)⟩

end AgriYield
